import Mathlib

/-!
# go-revendorbot: event filter, change detector and revendor workflow

A shallow embedding of `revendorbot.go`.  Go strings are modelled as Lean
`String`s (sequences of Unicode code points, i.e. valid UTF-8 text), Go
pointers that may be nil as `Option`, Go `error` values as `GoError`, and
every interaction with the outside world (hosting API, file system,
external commands, clock) as a lookup in an `Env` together with an entry in
an effect trace.  Logging (`log.Print…`) has no influence on control flow and
is left out of the trace.
-/

namespace Revendorbot

/-! ## Go standard-library helpers used by the source -/

/-- Go `unicode.IsSpace`: in Latin-1 the characters tab, newline, vertical tab,
form feed, carriage return, space, U+0085 and U+00A0; above Latin-1 the code
points of the Unicode `White_Space` property. -/
def isSpace (c : Char) : Bool :=
  let n := c.toNat
  (9 ≤ n && n ≤ 13) || n == 0x20 || n == 0x85 || n == 0xA0 || n == 0x1680 ||
  (0x2000 ≤ n && n ≤ 0x200a) || n == 0x2028 || n == 0x2029 || n == 0x202f ||
  n == 0x205f || n == 0x3000

/-- Removal of the trailing run of white space of a character list. -/
def trimRight (l : List Char) : List Char :=
  (l.reverse.dropWhile isSpace).reverse

/-- Character-list form of Go `strings.TrimSpace`: all leading and trailing
white space (as defined by `unicode.IsSpace`) removed. -/
def trimSpaceChars (l : List Char) : List Char :=
  trimRight (l.dropWhile isSpace)

/-- Go `strings.TrimSpace`. -/
def TrimSpace (s : String) : String :=
  ⟨trimSpaceChars s.data⟩

/-- Character-list form of Go `strings.Replace(s, old, new, 1)` for a
non-empty `old`: the first (leftmost) occurrence of `old` in `s` is replaced
by `new`; `s` is returned unchanged when `old` does not occur. -/
def replaceFirstChars (old new : List Char) : List Char → List Char
  | [] => []
  | c :: cs =>
    if old.isPrefixOf (c :: cs) then new ++ (c :: cs).drop old.length
    else c :: replaceFirstChars old new cs

/-- Go `strings.Replace(s, old, new, 1)` (for non-empty `old`). -/
def ReplaceFirst (s old new : String) : String :=
  ⟨replaceFirstChars old.data new.data s.data⟩

/-! ## Data model (the fields of the go-github structs that the source reads) -/

/-- Go `error` built with `github.com/pkg/errors`: a leaf message
(`errors.Errorf`, or an error produced by a collaborator) or a wrapped cause
(`errors.Wrap(cause, msg)`). -/
inductive GoError where
  | mk (msg : String)
  | wrap (cause : GoError) (msg : String)
  deriving DecidableEq, Repr

/-- The `Error()` text: `errors.Wrap(cause, msg)` prints as `msg: cause`. -/
def GoError.Error : GoError → String
  | .mk msg => msg
  | .wrap cause msg => msg ++ ": " ++ cause.Error

/-- Type `github.User`. -/
structure User where
  Login : Option String
  deriving DecidableEq, Repr

/-- Type `github.Repository` (also standing for `github.PushEventRepository`):
what the `Repo` interface of the source can observe. -/
structure Repository where
  Name : Option String
  Owner : Option User
  CloneURL : Option String
  deriving DecidableEq, Repr

/-- Type `github.IssueComment`. -/
structure IssueComment where
  ID : Option Int
  Body : Option String
  deriving DecidableEq, Repr

/-- Type `github.Issue`; `PullRequestLinks` is a pointer, only its nil-ness is read. -/
structure Issue where
  Number : Option Int
  PullRequestLinks : Option Unit
  deriving DecidableEq, Repr

/-- Type `github.IssueCommentEvent`. -/
structure IssueCommentEvent where
  Action : Option String
  Issue : Option Issue
  Comment : Option IssueComment
  Repo : Option Repository
  deriving DecidableEq, Repr

/-- Type `github.PushEvent`. -/
structure PushEvent where
  Ref : Option String
  Repo : Option Repository
  deriving DecidableEq, Repr

/-- Generated getter: the empty string for a nil field. -/
def getString : Option String → String
  | some s => s
  | none => ""

/-- Generated getter: zero for a nil field. -/
def getInt : Option Int → Int
  | some n => n
  | none => 0

/-- Getter `IssueCommentEvent.GetAction`. -/
def IssueCommentEvent.GetAction (e : IssueCommentEvent) : String := getString e.Action

/-- Getter `IssueComment.GetBody` on a possibly nil receiver. -/
def GetBody : Option IssueComment → String
  | some c => getString c.Body
  | none => ""

/-- Getter `IssueComment.GetID` on a possibly nil receiver. -/
def GetID : Option IssueComment → Int
  | some c => getInt c.ID
  | none => 0

/-- Getter `Issue.GetNumber` on a possibly nil receiver. -/
def GetNumber : Option Issue → Int
  | some i => getInt i.Number
  | none => 0

/-- Method `Issue.IsPullRequest`.  In go-github it is declared on the value
type (`func (i Issue) IsPullRequest() bool { return i.PullRequestLinks != nil }`),
so calling it through a nil `*Issue` dereferences nil and panics; `none` stands
for that run-time panic. -/
def IsPullRequest : Option Issue → Option Bool
  | some i => some i.PullRequestLinks.isSome
  | none => none

/-- Getter `Repository.GetName` on a possibly nil receiver. -/
def GetName : Option Repository → String
  | some r => getString r.Name
  | none => ""

/-- The chain `repo.GetOwner().GetLogin()` on a possibly nil receiver. -/
def GetOwnerLogin : Option Repository → String
  | some r => match r.Owner with
    | some u => getString u.Login
    | none => ""
  | none => ""

/-- Getter `Repository.GetCloneURL` on a possibly nil receiver. -/
def GetCloneURL : Option Repository → String
  | some r => getString r.CloneURL
  | none => ""

/-! ## The comment filter -/

/-- Function `filterComment` of the source.  `some b` is the returned boolean,
`none` the nil-pointer panic of `event.GetIssue().IsPullRequest()`. -/
def filterComment (event : IssueCommentEvent) : Option Bool :=
  if event.GetAction != "created" then some false
  else if event.Comment.isNone || TrimSpace (GetBody event.Comment) != "/revendor" then some false
  else match IsPullRequest event.Issue with
    | none => none
    | some isPR => if !isPR then some false else some true

/-! ## The outside world -/

/-- Type `github.Response`: the HTTP status of a hosting-API call. -/
structure Response where
  StatusCode : Int
  Status : String
  deriving DecidableEq, Repr

/-- Result `(resp, err)` of `Issues.DeleteComment` and `Issues.CreateComment`. -/
structure ApiResult where
  resp : Response
  err : Option GoError
  deriving DecidableEq, Repr

/-- Type `github.CommitFile`. -/
structure CommitFile where
  Filename : Option String
  deriving DecidableEq, Repr

/-- Result `(commit, resp, err)` of `Repositories.GetCommit`; of the commit only
its `Files` are read. -/
structure CommitResult where
  Files : List CommitFile
  resp : Response
  err : Option GoError
  deriving DecidableEq, Repr

/-- Type `github.PullRequestBranch`. -/
structure PullRequestBranch where
  Ref : Option String
  deriving DecidableEq, Repr

/-- Type `github.PullRequest`. -/
structure PullRequest where
  Head : Option PullRequestBranch
  deriving DecidableEq, Repr

/-- Result `(pr, resp, err)` of `PullRequests.Get`. -/
structure PullRequestResult where
  pr : Option PullRequest
  resp : Response
  err : Option GoError
  deriving DecidableEq, Repr

/-- The chain `pr.GetHead().GetRef()` on a possibly nil receiver. -/
def GetHeadRef : Option PullRequest → String
  | some pr => match pr.Head with
    | some h => getString h.Ref
    | none => ""
  | none => ""

/-- An external command as built by `newCmd`: working directory, program,
arguments, the entries appended to `os.Environ()`, and whether standard output
is redirected into a buffer instead of the process's own standard output. -/
structure Cmd where
  Dir : String
  Name : String
  Args : List String
  Env : List String
  Captured : Bool
  deriving DecidableEq, Repr

/-- Function `newCmd` of the source. -/
def newCmd (dir command : String) (arg : List String) : Cmd :=
  { Dir := dir, Name := command, Args := arg, Env := [], Captured := false }

/-- What `cmd.Run()` gives back: its error and the bytes written to `cmd.Stdout`. -/
structure CmdResult where
  err : Option GoError
  stdout : String
  deriving DecidableEq, Repr

/-- The parsed webhook event, as told apart by the type switch of `Handle`. -/
inductive WebhookEvent where
  | push (e : PushEvent)
  | issueComment (e : IssueCommentEvent)
  | other (typeName : String)
  deriving DecidableEq, Repr

/-- One observable interaction with the outside world. -/
inductive Effect where
  | deleteComment (owner repo : String) (commentID : Int)
  | createComment (owner repo : String) (number : Int) (body : String)
  | getPullRequest (owner repo : String) (number : Int)
  | getCommit (owner repo ref : String)
  | tempDir
  | mkdirAll (dir : String)
  | run (cmd : Cmd)
  | removeAll (dir : String)
  deriving DecidableEq, Repr

/-- The collaborators of the bot: how the hosting API, the file system, the
external commands, the webhook parser and the clock answer.  Every request is
issued at most once per handled event, so answers are keyed by the request. -/
structure Env where
  ParseWebHook : String → List UInt8 → Except GoError WebhookEvent
  DeleteComment : String → String → Int → ApiResult
  CreateComment : String → String → Int → String → ApiResult
  GetPullRequest : String → String → Int → PullRequestResult
  GetCommit : String → String → String → CommitResult
  TempDir : String × Option GoError
  Join : String → String → String → String
  MkdirAll : String → Option GoError
  Run : Cmd → CmdResult
  RemoveAll : String → Option GoError
  elapsed : String

/-! ## Change detector -/

/-- The loop over `commit.Files` in `revendorRequired`. -/
def touchesModFiles : List CommitFile → Bool
  | [] => false
  | f :: fs =>
    if getString f.Filename == "go.mod" || getString f.Filename == "go.sum" then true
    else touchesModFiles fs

/-- Method `Bot.revendorRequired` of the source. -/
def revendorRequired (env : Env) (repo : Option Repository) (ref : String) : Bool × List Effect :=
  let owner := GetOwnerLogin repo
  let repoName := GetName repo
  let r := env.GetCommit owner repoName ref
  let tr := [Effect.getCommit owner repoName ref]
  if r.err.isSome then (false, tr)
  else if r.resp.StatusCode > 299 then (false, tr)
  else (touchesModFiles r.Files, tr)

/-! ## Notifier -/

/-- Method `Bot.deleteComment` of the source. -/
def deleteComment (env : Env) (owner repo : String) (commentID : Int) : Option GoError × List Effect :=
  let r := env.DeleteComment owner repo commentID
  let tr := [Effect.deleteComment owner repo commentID]
  match r.err with
  | some err => (some (.wrap err "failed to delete comment"), tr)
  | none =>
    if r.resp.StatusCode > 299 then
      (some (.mk ("got status " ++ toString r.resp.StatusCode ++ " when deleting comment (" ++ r.resp.Status ++ ")")), tr)
    else (none, tr)

/-- Method `Bot.AddComment` of the source. -/
def AddComment (env : Env) (repo : Option Repository) (number : Int) (body : String) :
    Option GoError × List Effect :=
  let owner := GetOwnerLogin repo
  let repoName := GetName repo
  let r := env.CreateComment owner repoName number body
  let tr := [Effect.createComment owner repoName number body]
  match r.err with
  | some err => (some (.wrap err "failed to create comment"), tr)
  | none =>
    if r.resp.StatusCode > 299 then
      (some (.mk ("got status " ++ toString r.resp.StatusCode ++ " when creating comment (" ++ r.resp.Status ++ ")")), tr)
    else (none, tr)

/-! ## Workspace manager and revendor workflow -/

/-- The `git clone` command of `clone`. -/
def gitClone (dir url : String) : Cmd := newCmd dir "git" ["clone", url, "."]

/-- The `git checkout` command of `clone`. -/
def gitCheckout (dir ref : String) : Cmd := newCmd dir "git" ["checkout", ref]

/-- The ref handed to `git checkout`: `strings.Replace(ref, "refs/heads/", "", 1)`. -/
def checkoutRef (ref : String) : String := ReplaceFirst ref "refs/heads/" ""

/-- Method `Bot.clone` of the source.  The result is `(dir, cleanup, err)`;
the `cleanup` closure is represented by the directory it removes (`none` for
a nil closure). -/
def clone (env : Env) (repo : Option Repository) (ref : String) :
    (String × Option String × Option GoError) × List Effect :=
  match env.TempDir with
  | (tmpDir, some err) => ((tmpDir, none, some (.wrap err "failed to create temp dir")), [.tempDir])
  | (tmpDir, none) =>
    let cleanup := some tmpDir
    let repoName := GetName repo
    let owner := GetOwnerLogin repo
    let dir := env.Join tmpDir owner repoName
    match env.MkdirAll dir with
    | some err =>
      ((dir, cleanup, some (.wrap err "failed to create repo dir")), [.tempDir, .mkdirAll dir])
    | none =>
      let cmd := gitClone dir (GetCloneURL repo)
      match (env.Run cmd).err with
      | some err =>
        ((dir, cleanup, some (.wrap err "failed to clone")), [.tempDir, .mkdirAll dir, .run cmd])
      | none =>
        let cmd2 := gitCheckout dir (checkoutRef ref)
        match (env.Run cmd2).err with
        | some err =>
          ((dir, cleanup, some (.wrap err "failed to checkout")),
            [.tempDir, .mkdirAll dir, .run cmd, .run cmd2])
        | none => ((dir, cleanup, none), [.tempDir, .mkdirAll dir, .run cmd, .run cmd2])

/-- The environment entries appended for the `go mod` commands. -/
def goEnv : List String := ["GOFLAGS=-mod=vendor", "GO111MODULE=on"]

/-- The `go mod tidy -v` command of `revendor`. -/
def goModTidy (dir : String) : Cmd := { newCmd dir "go" ["mod", "tidy", "-v"] with Env := goEnv }

/-- The `go mod vendor` command of `revendor`. -/
def goModVendor (dir : String) : Cmd := { newCmd dir "go" ["mod", "vendor"] with Env := goEnv }

/-- The `git status --porcelain=v2` command of `revendor`, its output captured. -/
def gitStatus (dir : String) : Cmd :=
  { newCmd dir "git" ["status", "--porcelain=v2"] with Captured := true }

/-- The `git add .` command of `revendor`. -/
def gitAdd (dir : String) : Cmd := newCmd dir "git" ["add", "."]

/-- The signed `git commit` command of `revendor`. -/
def gitCommit (dir : String) : Cmd :=
  newCmd dir "git" ["commit", "-S", "-sm", "updating results of `go mod tidy` and `go mod vendor`"]

/-- The `git push` command of `revendor`. -/
def gitPush (dir : String) : Cmd := newCmd dir "git" ["push"]

/-- The part of `Bot.revendor` after a successful `clone` (the commands run in
the workspace), without the deferred cleanup. -/
def revendorSteps (env : Env) (dir : String) : Option GoError × List Effect :=
  match (env.Run (goModTidy dir)).err with
  | some err => (some (.wrap err "failed to run command"), [.run (goModTidy dir)])
  | none =>
  match (env.Run (goModVendor dir)).err with
  | some err =>
    (some (.wrap err "failed to run command"), [.run (goModTidy dir), .run (goModVendor dir)])
  | none =>
  let pre := [Effect.run (goModTidy dir), .run (goModVendor dir), .run (gitStatus dir)]
  match (env.Run (gitStatus dir)).err with
  | some err => (some (.wrap err "git status failed"), pre)
  | none =>
  if (env.Run (gitStatus dir)).stdout == "" then (none, pre)
  else
  match (env.Run (gitAdd dir)).err with
  | some err => (some (.wrap err "git add failed"), pre ++ [.run (gitAdd dir)])
  | none =>
  match (env.Run (gitCommit dir)).err with
  | some err =>
    (some (.wrap err "git commit failed"), pre ++ [.run (gitAdd dir), .run (gitCommit dir)])
  | none =>
  match (env.Run (gitPush dir)).err with
  | some err =>
    (some (.wrap err "git push failed"),
      pre ++ [.run (gitAdd dir), .run (gitCommit dir), .run (gitPush dir)])
  | none => (none, pre ++ [.run (gitAdd dir), .run (gitCommit dir), .run (gitPush dir)])

/-- The deferred call of `cleanup` in `revendor`: `os.RemoveAll(tmpDir)` when the
closure is not nil (a failing removal is only logged). -/
def deferredCleanup : Option String → List Effect
  | some tmpDir => [.removeAll tmpDir]
  | none => []

/-- Method `Bot.revendor` of the source: the returned error and the effects in
the order they happen, the deferred cleanup last. -/
def revendor (env : Env) (repo : Option Repository) (ref : String) : Option GoError × List Effect :=
  match clone env repo ref with
  | ((_, cleanup, some err), tr) => (some err, tr ++ deferredCleanup cleanup)
  | ((dir, cleanup, none), tr) =>
    let r := revendorSteps env dir
    (r.1, tr ++ r.2 ++ deferredCleanup cleanup)

/-! ## Orchestrator -/

/-- The in-progress comment of `handleComment`. -/
def inProgressBody : String :=
  ":robot: RevendorBot says `go.mod` or `go.sum` modified, may need to revendor."

/-- The no-action-needed comment of `handleComment`. -/
def noNeedBody : String := ":robot: RevendorBot doesn't need to revendor! :beach_umbrella:"

/-- The failure comment of `Handle`. -/
def failureBody (err : GoError) (dur : String) : String :=
  ":robot: :warning: RevendorBot got an error while trying to revendor:\n```\n" ++ err.Error ++
    "\n```\n\nTook " ++ dur

/-- The completion comment of `Handle`. -/
def doneBody (dur : String) : String := ":robot: RevendorBot done :hourglass: " ++ dur

/-- Method `Bot.handleComment` of the source. -/
def handleComment (env : Env) (event : IssueCommentEvent) : Option GoError × List Effect :=
  let repo := event.Repo
  let owner := GetOwnerLogin repo
  let repoName := GetName repo
  let commentID := GetID event.Comment
  let d := deleteComment env owner repoName commentID
  match d.1 with
  | some err => (some err, d.2)
  | none =>
  let number := GetNumber event.Issue
  let a := AddComment env repo number inProgressBody
  match a.1 with
  | some err => (some err, d.2 ++ a.2)
  | none =>
  let p := env.GetPullRequest owner repoName number
  let tr := d.2 ++ a.2 ++ [Effect.getPullRequest owner repoName number]
  match p.err with
  | some err => (some (.wrap err "failed to get PR"), tr)
  | none =>
  if p.resp.StatusCode > 299 then
    (some (.mk ("got status " ++ toString p.resp.StatusCode ++ " when getting PR (" ++ p.resp.Status ++ ")")), tr)
  else
  let ref := GetHeadRef p.pr
  let q := revendorRequired env repo ref
  if !q.1 then
    let n := AddComment env repo number noNeedBody
    (n.1, tr ++ q.2 ++ n.2)
  else
    let r := revendor env repo ref
    (r.1, tr ++ q.2 ++ r.2)

/-- Method `Bot.handlePush` of the source. -/
def handlePush (env : Env) (event : PushEvent) : Option GoError × List Effect :=
  let ref := getString event.Ref
  let q := revendorRequired env event.Repo ref
  if !q.1 then (none, q.2)
  else
    let r := revendor env event.Repo (getString event.Ref)
    (r.1, q.2 ++ r.2)

/-- How a call of `Handle` ends: it returns an error value (possibly nil) or
the goroutine panics. -/
inductive Outcome where
  | returned (err : Option GoError)
  | panicked
  deriving DecidableEq, Repr

/-- Method `Bot.Handle` of the source. -/
def Handle (env : Env) (eventType _deliveryID : String) (payload : List UInt8) :
    Outcome × List Effect :=
  match env.ParseWebHook eventType payload with
  | .error err => (.returned (some (.wrap err "failed to parse webhook event")), [])
  | .ok (.push e) =>
    let r := handlePush env e
    (.returned r.1, r.2)
  | .ok (.issueComment e) =>
    match filterComment e with
    | none => (.panicked, [])
    | some false => (.returned none, [])
    | some true =>
      let repo := e.Repo
      let prNum := GetNumber e.Issue
      let h := handleComment env e
      let dur := env.elapsed
      match h.1 with
      | some err =>
        let a := AddComment env repo prNum (failureBody err dur)
        (.returned (some err), h.2 ++ a.2)
      | none =>
        let a := AddComment env repo prNum (doneBody dur)
        match a.1 with
        | some err => (.returned (some (.wrap err "errored trying to add a comment")), h.2 ++ a.2)
        | none => (.returned none, h.2 ++ a.2)
  | .ok (.other _) => (.returned none, [])

/-! ## Observations on traces and sample inputs -/

/-- The trigger word as a character list. -/
def triggerChars : List Char := "/revendor".data

/-- The repository directory `filepath.Join(tmpDir, owner, repoName)` of `clone`. -/
def repoDir (env : Env) (tmpDir : String) (repo : Option Repository) : String :=
  env.Join tmpDir (GetOwnerLogin repo) (GetName repo)

/-- A call of the workspace release (`os.RemoveAll` on the temporary directory). -/
def isCleanup : Effect → Bool
  | .removeAll _ => true
  | _ => false

/-- An invocation of program `name` with first argument `sub`. -/
def invokes (name sub : String) : Effect → Bool
  | .run c => c.Name == name && c.Args.head? == some sub
  | _ => false

/-- A hosting-API call or an external command (as opposed to a file-system operation). -/
def isRequest : Effect → Bool
  | .deleteComment _ _ _ => true
  | .createComment _ _ _ _ => true
  | .getPullRequest _ _ _ => true
  | .getCommit _ _ _ => true
  | .run _ => true
  | _ => false

/-- The body of a posted comment. -/
def postedBody : Effect → Option String
  | .createComment _ _ _ body => some body
  | _ => none

/-- An effect of the revendor workflow: a file-system operation or an external command. -/
def isWorkflow : Effect → Bool
  | .tempDir => true
  | .mkdirAll _ => true
  | .run _ => true
  | .removeAll _ => true
  | _ => false

/-- The head ref of the pull request that `handleComment` fetches for an event. -/
def headRef (env : Env) (e : IssueCommentEvent) : String :=
  GetHeadRef (env.GetPullRequest (GetOwnerLogin e.Repo) (GetName e.Repo) (GetNumber e.Issue)).pr

/-- The effects with which `handleComment` starts when its preliminary steps succeed:
delete the triggering comment, post the in-progress comment, fetch the pull request,
query the files of its head commit. -/
def preliminaries (env : Env) (e : IssueCommentEvent) : List Effect :=
  [.deleteComment (GetOwnerLogin e.Repo) (GetName e.Repo) (GetID e.Comment),
   .createComment (GetOwnerLogin e.Repo) (GetName e.Repo) (GetNumber e.Issue) inProgressBody,
   .getPullRequest (GetOwnerLogin e.Repo) (GetName e.Repo) (GetNumber e.Issue),
   .getCommit (GetOwnerLogin e.Repo) (GetName e.Repo) (headRef env e)]

/-- A repository used in examples. -/
def sampleRepo : Option Repository :=
  some { Name := some "widgets", Owner := some { Login := some "acme" },
         CloneURL := some "https://example.com/acme/widgets.git" }

/-- A qualifying comment event on pull request 42 of `sampleRepo`. -/
def sampleEvent : IssueCommentEvent :=
  { Action := some "created", Issue := some { Number := some 42, PullRequestLinks := some () },
    Comment := some { ID := some 7, Body := some "/revendor" }, Repo := sampleRepo }

/-- An environment used in examples: the parser knows the type tags "issue_comment",
"push" and "ping" and rejects any other tag the way go-github's `ParseWebHook` does
(`unknown X-Github-Event in message: <tag>`); every hosting-API call succeeds, the commit
of any ref touched `files`, creating the temporary directory fails iff `tmpErr`
is set, the command whose first argument is `failing` exits with an error, and
`git status` prints `statusOut`. -/
def sampleEnv (files : List String) (tmpErr : Option GoError) (failing statusOut : String) : Env where
  ParseWebHook := fun ty _ =>
    if ty == "issue_comment" then .ok (.issueComment sampleEvent)
    else if ty == "push" then .ok (.push { Ref := some "refs/heads/main", Repo := sampleRepo })
    else if ty == "ping" then .ok (.other "*github.PingEvent")
    else .error (.mk ("unknown X-Github-Event in message: " ++ ty))
  DeleteComment := fun _ _ _ => { resp := { StatusCode := 204, Status := "204 No Content" }, err := none }
  CreateComment := fun _ _ _ _ => { resp := { StatusCode := 201, Status := "201 Created" }, err := none }
  GetPullRequest := fun _ _ _ =>
    { pr := some { Head := some { Ref := some "feature" } },
      resp := { StatusCode := 200, Status := "200 OK" }, err := none }
  GetCommit := fun _ _ _ =>
    { Files := files.map fun f => { Filename := some f },
      resp := { StatusCode := 200, Status := "200 OK" }, err := none }
  TempDir := ("/tmp/revendor-1", tmpErr)
  Join := fun a b c => a ++ "/" ++ b ++ "/" ++ c
  MkdirAll := fun _ => none
  Run := fun c =>
    if c.Args.head? == some failing then { err := some (.mk "exit status 1"), stdout := "" }
    else { err := none, stdout := if c.Captured then statusOut else "" }
  RemoveAll := fun _ => none
  elapsed := "1.5s"

/-! ## Lemmas on trimming -/

theorem dropWhile_ws_append (pre l : List Char) (h : ∀ c ∈ pre, isSpace c = true) :
    (pre ++ l).dropWhile isSpace = l.dropWhile isSpace := by
  induction pre with
  | nil => rfl
  | cons a t ih =>
    have ha : isSpace a = true := h a (List.mem_cons_self a t)
    have ht : ∀ c ∈ t, isSpace c = true := fun c hc => h c (List.mem_cons_of_mem a hc)
    simp [List.dropWhile, ha, ih ht]

theorem trimRight_append_ws (l post : List Char) (h : ∀ c ∈ post, isSpace c = true) :
    trimRight (l ++ post) = trimRight l := by
  unfold trimRight
  rw [List.reverse_append, dropWhile_ws_append]
  intro c hc
  exact h c (List.mem_reverse.mp hc)

/-- Every list splits into leading white space, its trimmed core and trailing
white space. -/
theorem trimSpaceChars_split (l : List Char) :
    ∃ pre post : List Char, (∀ c ∈ pre, isSpace c = true) ∧ (∀ c ∈ post, isSpace c = true) ∧
      l = pre ++ trimSpaceChars l ++ post := by
  refine ⟨l.takeWhile isSpace, ((l.dropWhile isSpace).reverse.takeWhile isSpace).reverse, ?_, ?_, ?_⟩
  · intro c hc
    exact List.mem_takeWhile_imp hc
  · intro c hc
    exact List.mem_takeWhile_imp (List.mem_reverse.mp hc)
  · have h1 : (l.dropWhile isSpace) =
        trimRight (l.dropWhile isSpace) ++ ((l.dropWhile isSpace).reverse.takeWhile isSpace).reverse := by
      unfold trimRight
      rw [← List.reverse_append, List.takeWhile_append_dropWhile, List.reverse_reverse]
    unfold trimSpaceChars
    rw [List.append_assoc, ← h1, List.takeWhile_append_dropWhile]

theorem countP_ws (l : List Char) (h : ∀ c ∈ l, isSpace c = true) :
    l.countP (fun c => !isSpace c) = 0 := by
  rw [List.countP_eq_zero]
  intro c hc
  simp [h c hc]

/-- The trigger word survives trimming of surrounding white space. -/
theorem trimSpaceChars_trigger (pre post : List Char)
    (hpre : ∀ c ∈ pre, isSpace c = true) (hpost : ∀ c ∈ post, isSpace c = true) :
    trimSpaceChars (pre ++ triggerChars ++ post) = triggerChars := by
  unfold trimSpaceChars
  rw [List.append_assoc, dropWhile_ws_append pre _ hpre]
  have h1 : (triggerChars ++ post).dropWhile isSpace = triggerChars ++ post := by
    have h0 : isSpace '/' = false := by decide
    simp [triggerChars, List.dropWhile, h0]
  rw [h1, trimRight_append_ws _ _ hpost]
  decide

/-- A body with a non-space character around the trigger word does not trim to it. -/
theorem trimSpaceChars_extra (pre post : List Char)
    (h : ∃ c ∈ pre ++ post, isSpace c = false) :
    trimSpaceChars (pre ++ triggerChars ++ post) ≠ triggerChars := by
  intro heq
  obtain ⟨a, b, ha, hb, hsplit⟩ := trimSpaceChars_split (pre ++ triggerChars ++ post)
  rw [heq] at hsplit
  have hc := congrArg (List.countP (fun c => !isSpace c)) hsplit
  simp only [List.countP_append, countP_ws a ha, countP_ws b hb] at hc
  have hpos : 0 < (pre ++ post).countP (fun c => !isSpace c) := by
    rw [List.countP_pos_iff]
    obtain ⟨c, hc1, hc2⟩ := h
    exact ⟨c, hc1, by simp [hc2]⟩
  rw [List.countP_append] at hpos
  omega

theorem TrimSpace_trigger (pre post : String)
    (hpre : ∀ c ∈ pre.data, isSpace c = true) (hpost : ∀ c ∈ post.data, isSpace c = true) :
    TrimSpace (pre ++ "/revendor" ++ post) = "/revendor" := by
  unfold TrimSpace
  have h := trimSpaceChars_trigger pre.data post.data hpre hpost
  simp only [String.data_append]
  show String.mk (trimSpaceChars (pre.data ++ triggerChars ++ post.data)) = _
  rw [h]
  rfl

theorem TrimSpace_extra (pre post : String)
    (h : ∃ c ∈ pre.data ++ post.data, isSpace c = false) :
    TrimSpace (pre ++ "/revendor" ++ post) ≠ "/revendor" := by
  unfold TrimSpace
  intro heq
  have h2 := congrArg String.data heq
  simp only [String.data_append] at h2
  exact trimSpaceChars_extra pre.data post.data h h2

/-! ## The comment filter: theorems -/

/-- For an event that carries an issue, `filterComment` returns true exactly when the
action is "created", the trimmed comment body is "/revendor" and the issue has
pull-request links; a missing comment makes it false. -/
theorem filterComment_with_issue (e : IssueCommentEvent) (i : Issue) (h : e.Issue = some i) :
    filterComment e = some (decide (e.GetAction = "created" ∧ e.Comment.isSome = true ∧
      TrimSpace (GetBody e.Comment) = "/revendor" ∧ i.PullRequestLinks.isSome = true)) := by
  unfold filterComment IsPullRequest
  rw [h]
  by_cases h1 : e.GetAction = "created"
  · by_cases h2 : e.Comment.isSome = true
    · by_cases h3 : TrimSpace (GetBody e.Comment) = "/revendor"
      · have h5 : e.Comment ≠ none := by
          intro h0
          simp [h0] at h2
        cases h4 : i.PullRequestLinks <;> simp [h1, h2, h3, h5, h4]
      · have h5 : e.Comment ≠ none := by
          intro h0
          simp [h0] at h2
        simp [h1, h2, h3, h5]
    · have h5 : e.Comment = none := by
        cases h0 : e.Comment
        · rfl
        · simp [h0] at h2
      simp [h1, h5]
  · simp [h1]

/-- C1 (failing input): on a created "/revendor" comment whose event carries no issue,
`filterComment` does not return false: the call `event.GetIssue().IsPullRequest()`
dereferences the nil issue and panics, and so does `Handle` on such an event. -/
theorem filterComment_missing_issue_panics :
    filterComment
      { Action := some "created", Issue := none,
        Comment := some { ID := none, Body := some "/revendor" }, Repo := none } = none ∧
    Handle { sampleEnv [] none "" "" with
        ParseWebHook := fun _ _ => .ok (.issueComment
          { Action := some "created", Issue := none,
            Comment := some { ID := none, Body := some "/revendor" }, Repo := none }) }
      "issue_comment" "d-0" [] = (.panicked, []) := by
  refine ⟨by decide, by decide⟩

/-- C2: trimming is white-space only.  A created comment on a pull request whose body is
"/revendor" surrounded by any white space passes the filter; a body with a non-space
character before or after the literal "/revendor" is rejected, whatever the rest of
the event. -/
theorem filterComment_trims_whitespace_only (e : IssueCommentEvent) (c : IssueComment)
    (i : Issue) (pre post : String) (hc : e.Comment = some c)
    (hb : c.Body = some (pre ++ "/revendor" ++ post)) :
    ((∀ ch ∈ pre.data, isSpace ch = true) → (∀ ch ∈ post.data, isSpace ch = true) →
      e.Action = some "created" → e.Issue = some i → i.PullRequestLinks.isSome = true →
      filterComment e = some true) ∧
    ((∃ ch ∈ pre.data ++ post.data, isSpace ch = false) → filterComment e = some false) := by
  have hbody : GetBody e.Comment = pre ++ "/revendor" ++ post := by
    rw [hc]; simp [GetBody, getString, hb]
  constructor
  · intro hpre hpost ha hi hpr
    have ht := TrimSpace_trigger pre post hpre hpost
    rw [hc] at hbody
    simp [filterComment, IssueCommentEvent.GetAction, getString, ha, hc, hbody, ht, hi,
      IsPullRequest, hpr]
  · intro hx
    have ht := TrimSpace_extra pre post hx
    unfold filterComment
    by_cases h1 : e.GetAction = "created"
    · simp [h1, hbody, ht]
    · simp [h1]

/-- Witness of C2 on the bodies of the specification: newline, three spaces, "/revendor",
two newlines passes; "/revendor now" is rejected. -/
theorem filterComment_trims_whitespace_only_witness :
    filterComment
      { Action := some "created", Issue := some { Number := some 42, PullRequestLinks := some () },
        Comment := some { ID := some 7, Body := some ("\n   " ++ "/revendor" ++ "\n\n") },
        Repo := none } = some true ∧
    filterComment
      { Action := some "created", Issue := some { Number := some 42, PullRequestLinks := some () },
        Comment := some { ID := some 7, Body := some ("" ++ "/revendor" ++ " now") },
        Repo := none } = some false :=
  ⟨(filterComment_trims_whitespace_only _ { ID := some 7, Body := some ("\n   " ++ "/revendor" ++ "\n\n") }
      { Number := some 42, PullRequestLinks := some () } "\n   " "\n\n" rfl rfl).1
      (by decide) (by decide) rfl rfl rfl,
   (filterComment_trims_whitespace_only _ { ID := some 7, Body := some ("" ++ "/revendor" ++ " now") }
      { Number := some 42, PullRequestLinks := some () } "" " now" rfl rfl).2
      ⟨'n', by decide, by decide⟩⟩

/-! ## Change detector: theorems -/

theorem touchesModFiles_iff (fs : List CommitFile) :
    touchesModFiles fs = true ↔
      ∃ f ∈ fs, getString f.Filename = "go.mod" ∨ getString f.Filename = "go.sum" := by
  induction fs with
  | nil => simp [touchesModFiles]
  | cons f t ih =>
    unfold touchesModFiles
    by_cases h : getString f.Filename = "go.mod" ∨ getString f.Filename = "go.sum"
    · have h2 : (getString f.Filename == "go.mod" || getString f.Filename == "go.sum") = true := by
        simpa using h
      rw [if_pos h2]
      simp [h]
    · have h2 : ¬ (getString f.Filename == "go.mod" || getString f.Filename == "go.sum") = true := by
        simpa using h
      rw [if_neg h2, ih]
      simp [h]

/-- The change detector says yes exactly on an error-free query with a status below 300
whose file list names "go.mod" or "go.sum". -/
theorem revendorRequired_true_iff (env : Env) (repo : Option Repository) (ref : String) :
    (revendorRequired env repo ref).1 = true ↔
      (env.GetCommit (GetOwnerLogin repo) (GetName repo) ref).err = none ∧
      (env.GetCommit (GetOwnerLogin repo) (GetName repo) ref).resp.StatusCode < 300 ∧
      ∃ f ∈ (env.GetCommit (GetOwnerLogin repo) (GetName repo) ref).Files,
        getString f.Filename = "go.mod" ∨ getString f.Filename = "go.sum" := by
  unfold revendorRequired
  cases herr : (env.GetCommit (GetOwnerLogin repo) (GetName repo) ref).err with
  | some err => simp [herr]
  | none =>
    by_cases hs : (env.GetCommit (GetOwnerLogin repo) (GetName repo) ref).resp.StatusCode > 299
    · have hs2 : ¬ (env.GetCommit (GetOwnerLogin repo) (GetName repo) ref).resp.StatusCode < 300 := by
        omega
      simp [herr, hs, hs2]
    · have hs2 : (env.GetCommit (GetOwnerLogin repo) (GetName repo) ref).resp.StatusCode < 300 := by
        omega
      simp only [herr, Option.isSome_none, Bool.false_eq_true, if_false, hs, hs2, true_and]
      exact touchesModFiles_iff _

/-- C3: `revendorRequired` returns true exactly when the get-commit query gave no error,
its status is below 300 and some returned file is named exactly "go.mod" or "go.sum";
files named "sub/go.mod" and "go.mod.bak" alone do not make it true. -/
theorem revendorRequired_iff (env : Env) (repo : Option Repository) (ref : String) :
    ((revendorRequired env repo ref).1 = true ↔
      (env.GetCommit (GetOwnerLogin repo) (GetName repo) ref).err = none ∧
      (env.GetCommit (GetOwnerLogin repo) (GetName repo) ref).resp.StatusCode < 300 ∧
      ∃ f ∈ (env.GetCommit (GetOwnerLogin repo) (GetName repo) ref).Files,
        getString f.Filename = "go.mod" ∨ getString f.Filename = "go.sum") ∧
    ((env.GetCommit (GetOwnerLogin repo) (GetName repo) ref).Files =
        [{ Filename := some "sub/go.mod" }, { Filename := some "go.mod.bak" }] →
      (revendorRequired env repo ref).1 = false) := by
  have key := revendorRequired_true_iff env repo ref
  refine ⟨key, ?_⟩
  intro hf
  cases hr : (revendorRequired env repo ref).1 with
  | false => rfl
  | true =>
    obtain ⟨_, _, f, hmem, hname⟩ := key.mp hr
    rw [hf] at hmem
    simp only [List.mem_cons, List.mem_singleton, List.not_mem_nil, or_false] at hmem
    rcases hmem with h | h <;> subst h <;> revert hname <;> decide

/-- Witness of C3: a successful query that lists "go.mod" requires a revendor. -/
theorem revendorRequired_iff_witness :
    (revendorRequired (sampleEnv ["README.md", "go.mod"] none "" "") sampleRepo "feature").1 = true :=
  (revendorRequired_iff (sampleEnv ["README.md", "go.mod"] none "" "") sampleRepo "feature").1.mpr
    ⟨rfl, by decide, { Filename := some "go.mod" }, by decide, Or.inl rfl⟩

/-! ## The ref handed to `git checkout`: theorems -/

theorem replaceFirstChars_leading (old new t : List Char) (h : old ≠ []) :
    replaceFirstChars old new (old ++ t) = new ++ t := by
  cases old with
  | nil => exact absurd rfl h
  | cons a o =>
    have hp : (a :: o).isPrefixOf (a :: (o ++ t)) = true := by
      rw [List.isPrefixOf_iff_prefix]
      exact List.prefix_append (a :: o) t
    have hd : (a :: (o ++ t)).drop (a :: o).length = t := by
      simp
    show replaceFirstChars (a :: o) new (a :: (o ++ t)) = new ++ t
    rw [replaceFirstChars, if_pos hp, hd]

theorem replaceFirstChars_absent (old new l : List Char) (h : ¬ old <:+: l) :
    replaceFirstChars old new l = l := by
  induction l with
  | nil => rfl
  | cons c cs ih =>
    have hp : ¬ (old.isPrefixOf (c :: cs) = true) := by
      rw [List.isPrefixOf_iff_prefix]
      exact fun hpre => h hpre.isInfix
    have ht : ¬ old <:+: cs := fun hin => h (hin.trans (List.suffix_cons c cs).isInfix)
    rw [replaceFirstChars, if_neg hp, ih ht]

/-- A leading "refs/heads/" is stripped from the ref that is checked out. -/
theorem checkoutRef_leading (s : String) : checkoutRef ("refs/heads/" ++ s) = s := by
  unfold checkoutRef ReplaceFirst
  rw [String.data_append, replaceFirstChars_leading _ _ _ (by decide)]
  rfl

/-- A ref in which "refs/heads/" does not occur at all is checked out unchanged. -/
theorem checkoutRef_absent (r : String) (h : ¬ "refs/heads/".data <:+: r.data) :
    checkoutRef r = r := by
  unfold checkoutRef ReplaceFirst
  rw [replaceFirstChars_absent _ _ _ h]

/-- C10 (failing input): the ref "feature/refs/heads/x" does not start with "refs/heads/",
yet `clone` hands "feature/x" to `git checkout`: `strings.Replace` removes the first
occurrence wherever it stands. -/
theorem clone_checkout_inner_occurrence :
    ("refs/heads/".data.isPrefixOf "feature/refs/heads/x".data) = false ∧
    checkoutRef "feature/refs/heads/x" = "feature/x" ∧
    (clone (sampleEnv [] none "" "") sampleRepo "feature/refs/heads/x").2 =
      [.tempDir, .mkdirAll "/tmp/revendor-1/acme/widgets",
       .run (gitClone "/tmp/revendor-1/acme/widgets" "https://example.com/acme/widgets.git"),
       .run (gitCheckout "/tmp/revendor-1/acme/widgets" "feature/x")] := by
  refine ⟨by decide, by decide, by decide⟩

/-! ## Revendor workflow: theorems -/

theorem clone_no_cleanup (env : Env) (repo : Option Repository) (ref : String) :
    (clone env repo ref).2.countP isCleanup = 0 := by
  unfold clone
  rcases hT : env.TempDir with ⟨tmpDir, terr⟩
  cases terr with
  | some err => simp [isCleanup]
  | none =>
    simp only
    split
    · simp [isCleanup]
    · split
      · simp [isCleanup]
      · split <;> simp [isCleanup]

theorem revendorSteps_no_cleanup (env : Env) (dir : String) :
    (revendorSteps env dir).2.countP isCleanup = 0 := by
  unfold revendorSteps
  repeat' split
  all_goals simp [isCleanup]

theorem clone_cleanup (env : Env) (repo : Option Repository) (ref : String) :
    (clone env repo ref).1.2.1 = if env.TempDir.2 = none then some env.TempDir.1 else none := by
  unfold clone
  rcases hT : env.TempDir with ⟨tmpDir, terr⟩
  cases terr with
  | some err => simp
  | none =>
    simp only
    split
    · simp
    · split
      · simp
      · split <;> simp

theorem revendor_trace (env : Env) (repo : Option Repository) (ref : String) :
    ∃ body : List Effect, body.countP isCleanup = 0 ∧
      (revendor env repo ref).2 = body ++ deferredCleanup (clone env repo ref).1.2.1 := by
  unfold revendor
  rcases hc : clone env repo ref with ⟨⟨dir, cleanup, err⟩, tr⟩
  have h1 : tr.countP isCleanup = 0 := by
    have := clone_no_cleanup env repo ref
    rw [hc] at this
    exact this
  cases err with
  | some e => exact ⟨tr, h1, rfl⟩
  | none =>
    refine ⟨tr ++ (revendorSteps env dir).2, ?_, rfl⟩
    rw [List.countP_append, h1, revendorSteps_no_cleanup]

/-- C4: when creating the workspace, clone, checkout, `go mod tidy`, `go mod vendor` and
`git status --porcelain=v2` all succeed and the status output is empty, `revendor`
returns no error, ran exactly those steps followed by the cleanup, and invoked
`git add`, `git commit` and `git push` zero times. -/
theorem revendor_no_change (env : Env) (repo : Option Repository) (ref tmpDir : String)
    (hTmp : env.TempDir = (tmpDir, none))
    (hMk : env.MkdirAll (repoDir env tmpDir repo) = none)
    (hClone : (env.Run (gitClone (repoDir env tmpDir repo) (GetCloneURL repo))).err = none)
    (hCheckout : (env.Run (gitCheckout (repoDir env tmpDir repo) (checkoutRef ref))).err = none)
    (hTidy : (env.Run (goModTidy (repoDir env tmpDir repo))).err = none)
    (hVendor : (env.Run (goModVendor (repoDir env tmpDir repo))).err = none)
    (hStatus : (env.Run (gitStatus (repoDir env tmpDir repo))).err = none)
    (hOut : (env.Run (gitStatus (repoDir env tmpDir repo))).stdout = "") :
    (revendor env repo ref).1 = none ∧
    (revendor env repo ref).2 =
      [.tempDir, .mkdirAll (repoDir env tmpDir repo),
       .run (gitClone (repoDir env tmpDir repo) (GetCloneURL repo)),
       .run (gitCheckout (repoDir env tmpDir repo) (checkoutRef ref)),
       .run (goModTidy (repoDir env tmpDir repo)), .run (goModVendor (repoDir env tmpDir repo)),
       .run (gitStatus (repoDir env tmpDir repo)), .removeAll tmpDir] ∧
    (revendor env repo ref).2.countP (invokes "git" "add") = 0 ∧
    (revendor env repo ref).2.countP (invokes "git" "commit") = 0 ∧
    (revendor env repo ref).2.countP (invokes "git" "push") = 0 := by
  have hrev : revendor env repo ref = (none,
      [.tempDir, .mkdirAll (repoDir env tmpDir repo),
       .run (gitClone (repoDir env tmpDir repo) (GetCloneURL repo)),
       .run (gitCheckout (repoDir env tmpDir repo) (checkoutRef ref)),
       .run (goModTidy (repoDir env tmpDir repo)), .run (goModVendor (repoDir env tmpDir repo)),
       .run (gitStatus (repoDir env tmpDir repo)), .removeAll tmpDir]) := by
    simp only [repoDir] at *
    simp [revendor, clone, revendorSteps, deferredCleanup, hTmp, hMk, hClone, hCheckout, hTidy,
      hVendor, hStatus, hOut]
  rw [hrev]
  refine ⟨rfl, rfl, ?_, ?_, ?_⟩ <;>
    simp [invokes, gitClone, gitCheckout, goModTidy, goModVendor, gitStatus, newCmd]

/-- Witness of C4: a run whose `git status` prints nothing. -/
theorem revendor_no_change_witness :
    (revendor (sampleEnv ["go.sum"] none "" "") sampleRepo "refs/heads/main").1 = none ∧
    (revendor (sampleEnv ["go.sum"] none "" "") sampleRepo "refs/heads/main").2.countP
      (invokes "git" "push") = 0 :=
  have h := revendor_no_change (sampleEnv ["go.sum"] none "" "") sampleRepo "refs/heads/main"
    "/tmp/revendor-1" rfl rfl rfl rfl rfl rfl rfl rfl
  ⟨h.1, h.2.2.2.2⟩

/-- C5 (counterexample): when creating the temporary directory fails, `clone` returns a
nil cleanup and the workspace release is called zero times, not once. -/
theorem revendor_cleanup_count_cex :
    ¬ ∀ (env : Env) (repo : Option Repository) (ref : String),
      (revendor env repo ref).2.countP isCleanup = 1 := by
  intro h
  have h1 := h (sampleEnv [] (some (.mk "no space left on device")) "" "") sampleRepo "main"
  revert h1
  decide

/-- C5 (amended): in every run in which the temporary directory was created, whatever
later step fails or succeeds, the workspace release is called exactly once, as the last
effect of the run; when creating the temporary directory fails it is never called. -/
theorem revendor_cleanup_once (env : Env) (repo : Option Repository) (ref : String) :
    (env.TempDir.2 = none →
      (revendor env repo ref).2.countP isCleanup = 1 ∧
      (revendor env repo ref).2.getLast? = some (.removeAll env.TempDir.1)) ∧
    (env.TempDir.2 ≠ none → (revendor env repo ref).2.countP isCleanup = 0) := by
  obtain ⟨body, hb, ht⟩ := revendor_trace env repo ref
  rw [ht, clone_cleanup]
  constructor
  · intro h
    simp [h, deferredCleanup, List.countP_append, hb, isCleanup]
  · intro h
    simp [h, deferredCleanup, hb]

/-- Witness of C5 (amended): a run whose `git commit` fails releases the workspace once. -/
theorem revendor_cleanup_once_witness :
    (revendor (sampleEnv ["go.mod"] none "commit" "1 .M N... go.sum") sampleRepo "main").1 ≠ none ∧
    (revendor (sampleEnv ["go.mod"] none "commit" "1 .M N... go.sum") sampleRepo "main").2.countP
      isCleanup = 1 :=
  ⟨by decide,
   ((revendor_cleanup_once (sampleEnv ["go.mod"] none "commit" "1 .M N... go.sum") sampleRepo
      "main").1 rfl).1⟩

/-! ## Orchestrator: theorems -/

/-- C6 (counterexample): an event whose type tag the webhook parser does not know is
neither a push nor an issue comment, yet `Handle` does not ignore it: the parser's error
comes back wrapped as "failed to parse webhook event". -/
theorem Handle_unknown_type_cex :
    (sampleEnv ["go.mod"] none "" "x").ParseWebHook "bogus" [123, 125] =
      .error (.mk "unknown X-Github-Event in message: bogus") ∧
    Handle (sampleEnv ["go.mod"] none "" "x") "bogus" "d-6" [123, 125] =
      (.returned (some (.wrap (.mk "unknown X-Github-Event in message: bogus")
        "failed to parse webhook event")), []) ∧
    (Handle (sampleEnv ["go.mod"] none "" "x") "bogus" "d-6" [123, 125]).1 ≠ .returned none := by
  refine ⟨rfl, by decide, by decide⟩

/-- C6 (amended): an event that the parser decodes to a type other than push and issue
comment, and an issue-comment event on which the filter returns false, are ignored:
`Handle` returns no error and performs no effect at all (no hosting-API call, no
file-system operation, no external command).  When the parser rejects the event (a
type tag it does not know, or a payload it cannot decode), `Handle` performs no effect
either and returns the parser's error wrapped as "failed to parse webhook event". -/
theorem Handle_ignores (env : Env) (eventType deliveryID : String) (payload : List UInt8) :
    (((∃ t, env.ParseWebHook eventType payload = .ok (.other t)) ∨
      (∃ e, env.ParseWebHook eventType payload = .ok (.issueComment e) ∧
        filterComment e = some false)) →
      Handle env eventType deliveryID payload = (.returned none, [])) ∧
    (∀ err, env.ParseWebHook eventType payload = .error err →
      Handle env eventType deliveryID payload =
        (.returned (some (.wrap err "failed to parse webhook event")), [])) := by
  constructor
  · intro h
    unfold Handle
    rcases h with ⟨t, ht⟩ | ⟨e, he, hf⟩
    · rw [ht]
    · rw [he]
      simp only [hf]
  · intro err herr
    unfold Handle
    rw [herr]

/-- Witness of C6 (amended): a ping event, a "deleted" comment event, and an event of a
type unknown to the parser. -/
theorem Handle_ignores_witness :
    Handle (sampleEnv ["go.mod"] none "" "x") "ping" "d-1" [] = (.returned none, []) ∧
    Handle { sampleEnv ["go.mod"] none "" "x" with
        ParseWebHook := fun _ _ => .ok (.issueComment { sampleEvent with Action := some "deleted" }) }
      "issue_comment" "d-2" [] = (.returned none, []) ∧
    Handle (sampleEnv ["go.mod"] none "" "x") "bogus" "d-6" [123, 125] =
      (.returned (some (.wrap (.mk "unknown X-Github-Event in message: bogus")
        "failed to parse webhook event")), []) :=
  ⟨(Handle_ignores _ "ping" "d-1" []).1 (Or.inl ⟨"*github.PingEvent", rfl⟩),
   (Handle_ignores _ "issue_comment" "d-2" []).1
     (Or.inr ⟨{ sampleEvent with Action := some "deleted" }, rfl, by decide⟩),
   (Handle_ignores _ "bogus" "d-6" [123, 125]).2 _ rfl⟩

theorem deleteComment_trace (env : Env) (owner repo : String) (commentID : Int) :
    (deleteComment env owner repo commentID).2 = [.deleteComment owner repo commentID] := by
  unfold deleteComment
  simp only
  split
  · rfl
  · split <;> rfl

theorem AddComment_trace (env : Env) (repo : Option Repository) (number : Int) (body : String) :
    (AddComment env repo number body).2 =
      [.createComment (GetOwnerLogin repo) (GetName repo) number body] := by
  unfold AddComment
  simp only
  split
  · rfl
  · split <;> rfl

theorem revendorRequired_trace (env : Env) (repo : Option Repository) (ref : String) :
    (revendorRequired env repo ref).2 = [.getCommit (GetOwnerLogin repo) (GetName repo) ref] := by
  unfold revendorRequired
  simp only
  split
  · rfl
  · split <;> rfl

/-- What `handleComment` does once its preliminary steps have succeeded. -/
theorem handleComment_after_preliminaries (env : Env) (e : IssueCommentEvent)
    (hDel : (deleteComment env (GetOwnerLogin e.Repo) (GetName e.Repo) (GetID e.Comment)).1 = none)
    (hProg : (AddComment env e.Repo (GetNumber e.Issue) inProgressBody).1 = none)
    (hPRerr : (env.GetPullRequest (GetOwnerLogin e.Repo) (GetName e.Repo)
      (GetNumber e.Issue)).err = none)
    (hPRst : (env.GetPullRequest (GetOwnerLogin e.Repo) (GetName e.Repo)
      (GetNumber e.Issue)).resp.StatusCode ≤ 299) :
    handleComment env e =
      if (revendorRequired env e.Repo (headRef env e)).1 = true then
        ((revendor env e.Repo (headRef env e)).1,
          preliminaries env e ++ (revendor env e.Repo (headRef env e)).2)
      else
        ((AddComment env e.Repo (GetNumber e.Issue) noNeedBody).1,
          preliminaries env e ++
            [.createComment (GetOwnerLogin e.Repo) (GetName e.Repo) (GetNumber e.Issue) noNeedBody]) := by
  have hst : ¬ (env.GetPullRequest (GetOwnerLogin e.Repo) (GetName e.Repo)
      (GetNumber e.Issue)).resp.StatusCode > 299 := by omega
  unfold handleComment
  simp only [hDel, hProg, hPRerr, hst, if_false, deleteComment_trace, AddComment_trace,
    revendorRequired_trace]
  cases hq : (revendorRequired env e.Repo
      (GetHeadRef (env.GetPullRequest (GetOwnerLogin e.Repo) (GetName e.Repo)
        (GetNumber e.Issue)).pr)).1 <;>
    simp [headRef, preliminaries, hq]

theorem clone_no_posts (env : Env) (repo : Option Repository) (ref : String) :
    (clone env repo ref).2.filterMap postedBody = [] := by
  unfold clone
  rcases hT : env.TempDir with ⟨tmpDir, terr⟩
  cases terr with
  | some err => simp [postedBody]
  | none =>
    simp only
    split
    · simp [postedBody]
    · split
      · simp [postedBody]
      · split <;> simp [postedBody]

theorem revendorSteps_no_posts (env : Env) (dir : String) :
    (revendorSteps env dir).2.filterMap postedBody = [] := by
  unfold revendorSteps
  repeat' split
  all_goals simp [postedBody]

/-- The revendor workflow posts no comment. -/
theorem revendor_no_posts (env : Env) (repo : Option Repository) (ref : String) :
    (revendor env repo ref).2.filterMap postedBody = [] := by
  unfold revendor
  rcases hc : clone env repo ref with ⟨⟨dir, cleanup, err⟩, tr⟩
  have h1 : tr.filterMap postedBody = [] := by
    have := clone_no_posts env repo ref
    rw [hc] at this
    exact this
  have h2 : (deferredCleanup cleanup).filterMap postedBody = [] := by
    cases cleanup <;> simp [deferredCleanup, postedBody]
  cases err with
  | some e => simp [List.filterMap_append, h1, h2]
  | none => simp [List.filterMap_append, h1, h2, revendorSteps_no_posts]

theorem doneBody_start (d : String) :
    (doneBody d).data.take 24 = ":robot: RevendorBot done".data := by
  unfold doneBody
  rw [String.data_append, List.take_append_of_le_length (by decide)]
  decide

theorem failureBody_start (err : GoError) (d : String) :
    (failureBody err d).data.take 24 = ":robot: :warning: Revend".data := by
  unfold failureBody
  simp only [String.data_append, List.append_assoc]
  rw [List.take_append_of_le_length (by decide)]
  decide

/-- Neither the in-progress comment nor a failure comment is a completion comment. -/
theorem not_doneBody (err : GoError) (d d2 : String) :
    inProgressBody ≠ doneBody d2 ∧ failureBody err d ≠ doneBody d2 := by
  constructor
  · intro h
    have h2 := congrArg (fun s => s.data.take 24) h
    simp only [doneBody_start] at h2
    revert h2
    decide
  · intro h
    have h2 := congrArg (fun s => s.data.take 24) h
    simp only [doneBody_start, failureBody_start] at h2
    revert h2
    decide

/-- The in-progress comment is not a failure comment. -/
theorem inProgressBody_ne_failureBody (err : GoError) (d : String) :
    inProgressBody ≠ failureBody err d := by
  intro h
  have h2 := congrArg (fun s => s.data.take 24) h
  simp only [failureBody_start] at h2
  revert h2
  decide

/-- C7 (counterexample): a "/revendor" comment on a pull request whose head commit touched
only README.md.  After the no-action-needed comment `Handle` posts one more comment, the
completion comment. -/
theorem Handle_no_need_then_done_cex :
    filterComment sampleEvent = some true ∧
    (revendorRequired (sampleEnv ["README.md"] none "" "") sampleRepo "feature").1 = false ∧
    Handle (sampleEnv ["README.md"] none "" "") "issue_comment" "d-3" [] =
      (.returned none,
       [.deleteComment "acme" "widgets" 7,
        .createComment "acme" "widgets" 42 inProgressBody,
        .getPullRequest "acme" "widgets" 42,
        .getCommit "acme" "widgets" "feature",
        .createComment "acme" "widgets" 42 noNeedBody,
        .createComment "acme" "widgets" 42 (doneBody "1.5s")]) := by
  refine ⟨by decide, by decide, by decide⟩

/-- C7 (amended): for a qualifying comment event whose preliminary steps succeed and for
which the change detector returns false, `Handle` posts the no-action-needed comment and
does not run the revendor workflow (no file-system operation, no external command);
the one comment posted after it is the comment `Handle` posts once `handleComment` has
returned: the completion comment when posting the no-action-needed comment succeeded,
the failure comment when it failed. -/
theorem Handle_no_need (env : Env) (eventType deliveryID : String) (payload : List UInt8)
    (e : IssueCommentEvent)
    (hp : env.ParseWebHook eventType payload = .ok (.issueComment e))
    (hf : filterComment e = some true)
    (hDel : (deleteComment env (GetOwnerLogin e.Repo) (GetName e.Repo) (GetID e.Comment)).1 = none)
    (hProg : (AddComment env e.Repo (GetNumber e.Issue) inProgressBody).1 = none)
    (hPRerr : (env.GetPullRequest (GetOwnerLogin e.Repo) (GetName e.Repo)
      (GetNumber e.Issue)).err = none)
    (hPRst : (env.GetPullRequest (GetOwnerLogin e.Repo) (GetName e.Repo)
      (GetNumber e.Issue)).resp.StatusCode ≤ 299)
    (hReq : (revendorRequired env e.Repo (headRef env e)).1 = false) :
    (Handle env eventType deliveryID payload).2 =
      preliminaries env e ++
        [.createComment (GetOwnerLogin e.Repo) (GetName e.Repo) (GetNumber e.Issue) noNeedBody,
         .createComment (GetOwnerLogin e.Repo) (GetName e.Repo) (GetNumber e.Issue)
           (match (AddComment env e.Repo (GetNumber e.Issue) noNeedBody).1 with
            | none => doneBody env.elapsed
            | some err => failureBody err env.elapsed)] ∧
    (Handle env eventType deliveryID payload).2.countP isWorkflow = 0 ∧
    (Handle env eventType deliveryID payload).1 =
      (match (AddComment env e.Repo (GetNumber e.Issue) noNeedBody).1 with
       | some err => .returned (some err)
       | none =>
         match (AddComment env e.Repo (GetNumber e.Issue) (doneBody env.elapsed)).1 with
         | none => .returned none
         | some err => .returned (some (.wrap err "errored trying to add a comment"))) := by
  have hc := handleComment_after_preliminaries env e hDel hProg hPRerr hPRst
  rw [hReq] at hc
  simp only [Bool.false_eq_true, if_false] at hc
  unfold Handle
  rw [hp]
  simp only [hf, hc]
  cases hn : (AddComment env e.Repo (GetNumber e.Issue) noNeedBody).1 with
  | some err =>
    simp [AddComment_trace, preliminaries, isWorkflow]
  | none =>
    simp only
    cases hd : (AddComment env e.Repo (GetNumber e.Issue) (doneBody env.elapsed)).1 <;>
      simp [AddComment_trace, preliminaries, isWorkflow]

/-- Witness of C7 (amended): the README-only pull request. -/
theorem Handle_no_need_witness :
    (Handle (sampleEnv ["README.md"] none "" "") "issue_comment" "d-3" []).2.countP isWorkflow = 0 :=
  (Handle_no_need (sampleEnv ["README.md"] none "" "") "issue_comment" "d-3" [] sampleEvent
    rfl (by decide) (by decide) (by decide) rfl (by decide) (by decide)).2.1

/-- C8: for a qualifying comment event whose preliminary steps succeed, for which the
change detector returns true and whose revendor workflow fails with `err`, `Handle`
returns `err` itself (whether or not posting the failure comment succeeds); after the
workflow it posts one comment on the same pull request, whose body holds the text of
`err` verbatim and the elapsed duration; the comments posted are the in-progress
comment and that one failure comment, and neither is a completion comment. -/
theorem Handle_workflow_failure (env : Env) (eventType deliveryID : String)
    (payload : List UInt8) (e : IssueCommentEvent) (err : GoError)
    (hp : env.ParseWebHook eventType payload = .ok (.issueComment e))
    (hf : filterComment e = some true)
    (hDel : (deleteComment env (GetOwnerLogin e.Repo) (GetName e.Repo) (GetID e.Comment)).1 = none)
    (hProg : (AddComment env e.Repo (GetNumber e.Issue) inProgressBody).1 = none)
    (hPRerr : (env.GetPullRequest (GetOwnerLogin e.Repo) (GetName e.Repo)
      (GetNumber e.Issue)).err = none)
    (hPRst : (env.GetPullRequest (GetOwnerLogin e.Repo) (GetName e.Repo)
      (GetNumber e.Issue)).resp.StatusCode ≤ 299)
    (hReq : (revendorRequired env e.Repo (headRef env e)).1 = true)
    (hErr : (revendor env e.Repo (headRef env e)).1 = some err) :
    (Handle env eventType deliveryID payload).1 = .returned (some err) ∧
    (Handle env eventType deliveryID payload).2 =
      preliminaries env e ++ (revendor env e.Repo (headRef env e)).2 ++
        [.createComment (GetOwnerLogin e.Repo) (GetName e.Repo) (GetNumber e.Issue)
          (failureBody err env.elapsed)] ∧
    (Handle env eventType deliveryID payload).2.filterMap postedBody =
      [inProgressBody, failureBody err env.elapsed] ∧
    (∃ a b : String, failureBody err env.elapsed = a ++ err.Error ++ b ++ env.elapsed) ∧
    inProgressBody ≠ failureBody err env.elapsed ∧
    (∀ d : String, inProgressBody ≠ doneBody d ∧ failureBody err env.elapsed ≠ doneBody d) := by
  have hc := handleComment_after_preliminaries env e hDel hProg hPRerr hPRst
  rw [hReq] at hc
  simp only [if_true, hErr] at hc
  have hH : Handle env eventType deliveryID payload = (.returned (some err),
      preliminaries env e ++ (revendor env e.Repo (headRef env e)).2 ++
        [.createComment (GetOwnerLogin e.Repo) (GetName e.Repo) (GetNumber e.Issue)
          (failureBody err env.elapsed)]) := by
    unfold Handle
    rw [hp]
    simp only [hf, hc, AddComment_trace]
  rw [hH]
  refine ⟨rfl, rfl, ?_, ⟨_, _, rfl⟩, inProgressBody_ne_failureBody err env.elapsed,
    fun d => not_doneBody err env.elapsed d⟩
  simp [List.filterMap_append, revendor_no_posts, preliminaries, postedBody]

/-- Witness of C8: `git push` fails with "exit status 1". -/
theorem Handle_workflow_failure_witness :
    (Handle (sampleEnv ["go.mod"] none "push" "1 .M N... go.sum") "issue_comment" "d-4" []).1 =
      .returned (some (.wrap (.mk "exit status 1") "git push failed")) :=
  (Handle_workflow_failure (sampleEnv ["go.mod"] none "push" "1 .M N... go.sum") "issue_comment"
    "d-4" [] sampleEvent (.wrap (.mk "exit status 1") "git push failed")
    rfl (by decide) (by decide) (by decide) rfl (by decide) (by decide) (by decide)).1

/-- C9: for a qualifying comment event where every hosting-API call succeeds, the head
commit touched go.mod or go.sum and every workflow step succeeds with a non-empty
status output, `Handle` returns no error and its effects are, in this order: delete the
triggering comment, post the in-progress comment, fetch the pull request, query the
commit files of its head ref, run the workflow (create the workspace, clone, checkout,
tidy, vendor, status, add, commit, push, release the workspace), post the completion
comment with the elapsed duration. -/
theorem Handle_revendor_order (env : Env) (eventType deliveryID : String)
    (payload : List UInt8) (e : IssueCommentEvent) (tmpDir : String)
    (hp : env.ParseWebHook eventType payload = .ok (.issueComment e))
    (hf : filterComment e = some true)
    (hDel : (deleteComment env (GetOwnerLogin e.Repo) (GetName e.Repo) (GetID e.Comment)).1 = none)
    (hProg : (AddComment env e.Repo (GetNumber e.Issue) inProgressBody).1 = none)
    (hPRerr : (env.GetPullRequest (GetOwnerLogin e.Repo) (GetName e.Repo)
      (GetNumber e.Issue)).err = none)
    (hPRst : (env.GetPullRequest (GetOwnerLogin e.Repo) (GetName e.Repo)
      (GetNumber e.Issue)).resp.StatusCode ≤ 299)
    (hCerr : (env.GetCommit (GetOwnerLogin e.Repo) (GetName e.Repo) (headRef env e)).err = none)
    (hCst : (env.GetCommit (GetOwnerLogin e.Repo) (GetName e.Repo)
      (headRef env e)).resp.StatusCode ≤ 299)
    (hFiles : ∃ f ∈ (env.GetCommit (GetOwnerLogin e.Repo) (GetName e.Repo) (headRef env e)).Files,
      getString f.Filename = "go.mod" ∨ getString f.Filename = "go.sum")
    (hTmp : env.TempDir = (tmpDir, none))
    (hMk : env.MkdirAll (repoDir env tmpDir e.Repo) = none)
    (hClone : (env.Run (gitClone (repoDir env tmpDir e.Repo) (GetCloneURL e.Repo))).err = none)
    (hCheckout : (env.Run (gitCheckout (repoDir env tmpDir e.Repo)
      (checkoutRef (headRef env e)))).err = none)
    (hTidy : (env.Run (goModTidy (repoDir env tmpDir e.Repo))).err = none)
    (hVendor : (env.Run (goModVendor (repoDir env tmpDir e.Repo))).err = none)
    (hStatus : (env.Run (gitStatus (repoDir env tmpDir e.Repo))).err = none)
    (hOut : (env.Run (gitStatus (repoDir env tmpDir e.Repo))).stdout ≠ "")
    (hAdd : (env.Run (gitAdd (repoDir env tmpDir e.Repo))).err = none)
    (hCommit : (env.Run (gitCommit (repoDir env tmpDir e.Repo))).err = none)
    (hPush : (env.Run (gitPush (repoDir env tmpDir e.Repo))).err = none)
    (hDone : (AddComment env e.Repo (GetNumber e.Issue) (doneBody env.elapsed)).1 = none) :
    Handle env eventType deliveryID payload =
      (.returned none,
       [.deleteComment (GetOwnerLogin e.Repo) (GetName e.Repo) (GetID e.Comment),
        .createComment (GetOwnerLogin e.Repo) (GetName e.Repo) (GetNumber e.Issue) inProgressBody,
        .getPullRequest (GetOwnerLogin e.Repo) (GetName e.Repo) (GetNumber e.Issue),
        .getCommit (GetOwnerLogin e.Repo) (GetName e.Repo) (headRef env e),
        .tempDir,
        .mkdirAll (repoDir env tmpDir e.Repo),
        .run (gitClone (repoDir env tmpDir e.Repo) (GetCloneURL e.Repo)),
        .run (gitCheckout (repoDir env tmpDir e.Repo) (checkoutRef (headRef env e))),
        .run (goModTidy (repoDir env tmpDir e.Repo)),
        .run (goModVendor (repoDir env tmpDir e.Repo)),
        .run (gitStatus (repoDir env tmpDir e.Repo)),
        .run (gitAdd (repoDir env tmpDir e.Repo)),
        .run (gitCommit (repoDir env tmpDir e.Repo)),
        .run (gitPush (repoDir env tmpDir e.Repo)),
        .removeAll tmpDir,
        .createComment (GetOwnerLogin e.Repo) (GetName e.Repo) (GetNumber e.Issue)
          (doneBody env.elapsed)]) ∧
    (Handle env eventType deliveryID payload).2.filter isRequest =
      [.deleteComment (GetOwnerLogin e.Repo) (GetName e.Repo) (GetID e.Comment),
       .createComment (GetOwnerLogin e.Repo) (GetName e.Repo) (GetNumber e.Issue) inProgressBody,
       .getPullRequest (GetOwnerLogin e.Repo) (GetName e.Repo) (GetNumber e.Issue),
       .getCommit (GetOwnerLogin e.Repo) (GetName e.Repo) (headRef env e),
       .run (gitClone (repoDir env tmpDir e.Repo) (GetCloneURL e.Repo)),
       .run (gitCheckout (repoDir env tmpDir e.Repo) (checkoutRef (headRef env e))),
       .run (goModTidy (repoDir env tmpDir e.Repo)),
       .run (goModVendor (repoDir env tmpDir e.Repo)),
       .run (gitStatus (repoDir env tmpDir e.Repo)),
       .run (gitAdd (repoDir env tmpDir e.Repo)),
       .run (gitCommit (repoDir env tmpDir e.Repo)),
       .run (gitPush (repoDir env tmpDir e.Repo)),
       .createComment (GetOwnerLogin e.Repo) (GetName e.Repo) (GetNumber e.Issue)
         (doneBody env.elapsed)] := by
  have hReq : (revendorRequired env e.Repo (headRef env e)).1 = true :=
    (revendorRequired_true_iff env e.Repo (headRef env e)).mpr ⟨hCerr, by omega, hFiles⟩
  have hc := handleComment_after_preliminaries env e hDel hProg hPRerr hPRst
  rw [hReq] at hc
  simp only [if_true] at hc
  have hrev : revendor env e.Repo (headRef env e) = (none,
      [.tempDir, .mkdirAll (repoDir env tmpDir e.Repo),
       .run (gitClone (repoDir env tmpDir e.Repo) (GetCloneURL e.Repo)),
       .run (gitCheckout (repoDir env tmpDir e.Repo) (checkoutRef (headRef env e))),
       .run (goModTidy (repoDir env tmpDir e.Repo)),
       .run (goModVendor (repoDir env tmpDir e.Repo)),
       .run (gitStatus (repoDir env tmpDir e.Repo)),
       .run (gitAdd (repoDir env tmpDir e.Repo)),
       .run (gitCommit (repoDir env tmpDir e.Repo)),
       .run (gitPush (repoDir env tmpDir e.Repo)),
       .removeAll tmpDir]) := by
    simp only [repoDir] at *
    simp [revendor, clone, revendorSteps, deferredCleanup, hTmp, hMk, hClone, hCheckout, hTidy,
      hVendor, hStatus, hOut, hAdd, hCommit, hPush]
  rw [hrev] at hc
  have hH : Handle env eventType deliveryID payload = (.returned none,
      preliminaries env e ++
       [.tempDir, .mkdirAll (repoDir env tmpDir e.Repo),
        .run (gitClone (repoDir env tmpDir e.Repo) (GetCloneURL e.Repo)),
        .run (gitCheckout (repoDir env tmpDir e.Repo) (checkoutRef (headRef env e))),
        .run (goModTidy (repoDir env tmpDir e.Repo)),
        .run (goModVendor (repoDir env tmpDir e.Repo)),
        .run (gitStatus (repoDir env tmpDir e.Repo)),
        .run (gitAdd (repoDir env tmpDir e.Repo)),
        .run (gitCommit (repoDir env tmpDir e.Repo)),
        .run (gitPush (repoDir env tmpDir e.Repo)),
        .removeAll tmpDir] ++
       [.createComment (GetOwnerLogin e.Repo) (GetName e.Repo) (GetNumber e.Issue)
          (doneBody env.elapsed)]) := by
    unfold Handle
    rw [hp]
    simp only [hf, hc, hDone, AddComment_trace]
  rw [hH]
  refine ⟨by simp [preliminaries], by simp [preliminaries, isRequest]⟩

/-- Witness of C9: pull request 42 whose head commit touched go.mod and whose
regeneration leaves a modified go.sum. -/
theorem Handle_revendor_order_witness :
    (Handle (sampleEnv ["go.mod"] none "" "1 .M N... go.sum") "issue_comment" "d-5" []).1 =
      .returned none :=
  congrArg Prod.fst
    (Handle_revendor_order (sampleEnv ["go.mod"] none "" "1 .M N... go.sum") "issue_comment" "d-5"
      [] sampleEvent "/tmp/revendor-1"
      rfl (by decide) (by decide) (by decide) rfl (by decide) rfl (by decide)
      ⟨{ Filename := some "go.mod" }, by decide, Or.inl rfl⟩
      rfl rfl rfl rfl rfl rfl rfl (by decide) rfl rfl rfl (by decide)).1

end Revendorbot
